import Mathlib

/-!
Verification of the TIDAL pipeline orchestrator (`CODE/TIDAL.py`).

The development shallowly embeds the pure logic of the orchestrator:

* `estimate_read_length` — the FASTQ read-length sampler (files embedded as
  the list of lines Python's file iteration yields, line terminators included);
* `make_chrom_files` — the per-chromosome split and chromosome-length index,
  over the list of FASTA records produced by the external `SeqIO.parse`;
* `Insertion`, `parseInsertionTable`, `write_output` — parsing of the final
  tab-delimited insertion table and re-emission as a BED-like interval file;
* `setup_input_files`, `run_tidal`, `run_pipeline` — the staging and
  stage-sequencing control flow, with the outside world (cp / bowtie-build /
  gunzip exit statuses, stage exit statuses, checkpoint-artifact existence)
  supplied as explicit environment records.

Python exceptions and `sys.exit` are embedded as `Except` / `Option` /
`Outcome` values; integer arithmetic is on `Nat` (all quantities involved are
non-negative).
-/

namespace TIDAL

/-! ## String helpers (embedding Python string operations) -/

/-- Embeds Python `s.replace('\n', "")`: removes every newline character. -/
def stripNewline (s : String) : String :=
  String.mk (s.data.filter (fun c => !(c == '\n')))

/-- Embeds Python `s.split(c)` for a one-character separator: groups kept in
order, empty groups preserved, `[""]` on the empty string. -/
def splitOnCharAll (c : Char) : List Char → List (List Char)
  | [] => [[]]
  | a :: rest =>
    match splitOnCharAll c rest with
    | [] => [[]]
    | g :: gs => if a = c then [] :: g :: gs else (a :: g) :: gs

/-- Embeds `line.replace("\n", "").split("\t")` from `write_output`. -/
def splitTab (line : String) : List String :=
  (splitOnCharAll '\t' (stripNewline line).data).map String.mk

/-- Embeds Python `".".join(parts)`. -/
def join_dot : List String → String
  | [] => ""
  | [s] => s
  | s :: rest => s ++ "." ++ join_dot rest

/-- Embeds `os.path.basename`: the part after the last `/`. -/
def basename (p : String) : String :=
  String.mk ((splitOnCharAll '/' p.data).getLastD [])

/-- Embeds Python `s[-3:] == ".gz"` (on a string shorter than three
characters the slice is the whole string, so the test is false). -/
def endsWithGz (s : String) : Bool :=
  s.data.drop (s.data.length - 3) == ['.', 'g', 'z']

/-- Embeds Python `s[:-3]`. -/
def dropLast3 (s : String) : String :=
  String.mk (s.data.take (s.data.length - 3))

/-- Embeds `get_base_name`: basename, then strip a `.gz` suffix, then drop
the final dot-separated component. -/
def get_base_name (path : String) : String :=
  let no_path := basename path
  let no_path2 := if endsWithGz no_path then dropLast3 no_path else no_path
  join_dot (((splitOnCharAll '.' no_path2.data).map String.mk).dropLast)

/-! ## ReadLengthEstimator: `estimate_read_length`

The Python loop is

  for x, line in enumerate(f):
      if x % 4 == 1:
          lengths.append(len(line.replace('\n', "")))
      if x >= reads:
          break
  length = sum(lengths) // len(lengths)

`reads` bounds the 0-based line index `x`, and the break test runs after the
line at index `x` has already been processed. -/

/-- The sampling loop of `estimate_read_length`, started at line index `x`:
collects the stripped length of every line whose index is `≡ 1 (mod 4)`,
stopping after the line whose index reaches `reads`. -/
def sampleLengths (reads : Nat) : Nat → List String → List Nat
  | _, [] => []
  | x, line :: rest =>
    let cur := if x % 4 = 1 then [(stripNewline line).length] else []
    if reads ≤ x then cur
    else cur ++ sampleLengths reads (x + 1) rest

/-- The default value of the `reads` parameter of `estimate_read_length`. -/
def default_reads : Nat := 10000

/-- Embeds `estimate_read_length`. The final statement
`sum(lengths) // len(lengths)` raises an uncaught `ZeroDivisionError` when no
line was sampled; the raising division is embedded as `Except`, with the
error value recording the exception Python raises there. -/
def estimate_read_length (fileLines : List String) (reads : Nat) : Except String Nat :=
  let lengths := sampleLengths reads 0 fileLines
  if lengths.length = 0 then
    Except.error "ZeroDivisionError: integer division or modulo by zero"
  else
    Except.ok (lengths.sum / lengths.length)

/-! ## InputStager: `make_chrom_files`

`SeqIO.parse` is an external collaborator; the function below is the loop
body of `make_chrom_files` over the parsed sequence records, in the order
they appear in the reference file. It returns the lines written to
`chrom_lengths.tsv` (in write order) and the `(file name, file content)`
writes performed under `chroms/` (in write order). -/

/-- One sequence record as yielded by `SeqIO.parse`: `record.id` and
`str(record.seq)`. -/
structure FastaRecord where
  id : String
  seq : String

/-- Embeds the loop of `make_chrom_files`: for each record, one
`name\tlength\n` line into the index file and one `chroms/<name>.fa` file
holding that single sequence. -/
def make_chrom_files : List FastaRecord → List String × List (String × String)
  | [] => ([], [])
  | r :: rest =>
    let done := make_chrom_files rest
    ((r.id ++ "\t" ++ toString r.seq.length ++ "\n") :: done.1,
     (r.id ++ ".fa", ">" ++ r.id ++ "\n" ++ r.seq ++ "\n") :: done.2)

/-! ## ResultTranslator: `Insertion`, table parsing and `write_output` -/

/-- Embeds the `Insertion` class: `info` is the Python dict (association
list in insertion order), `is_ref` the flag the constructor sets to False. -/
structure Insertion where
  info : List (String × String)
  is_ref : Bool

/-- Python dict assignment `d[k] = v`: overwrite in place when the key is
present, append otherwise. -/
def dictInsert (d : List (String × String)) (k v : String) : List (String × String) :=
  if d.any (fun p => p.1 == k) then
    d.map (fun p => if p.1 == k then (k, v) else p)
  else d ++ [(k, v)]

/-- Python dict lookup `d[k]`, `none` embedding the `KeyError` raise. -/
def dictGet (d : List (String × String)) (k : String) : Option String :=
  (d.find? (fun p => p.1 == k)).map Prod.snd

/-- Embeds the inner loop of `write_output`'s parser:

  for x, val in enumerate(split_line):
      insert.info[headers[x]] = val

`headers[x]` raises `IndexError` when `x` is past the end of `headers`;
the raise is embedded as `none`. -/
def assignFields (headers : List String) : Nat → List (String × String) → List String →
    Option (List (String × String))
  | _, d, [] => some d
  | x, d, v :: vs =>
    match headers.get? x with
    | none => none
    | some h => assignFields headers (x + 1) (dictInsert d h v) vs

/-- Embeds the row loop of `write_output`'s parser: each data line is split
on tabs and turned into an `Insertion` (constructor leaves `is_ref := false`);
a raise on any row aborts the whole run (`none`). -/
def parseRows (headers : List String) : List String → Option (List Insertion)
  | [] => some []
  | line :: rest =>
    match assignFields headers 0 [] (splitTab line) with
    | none => none
    | some d =>
      match parseRows headers rest with
      | none => none
      | some others => some ({ info := d, is_ref := false } :: others)

/-- Embeds the parsing phase of `write_output`: line 0 is the header row,
every later line a data row. On an empty file the header variable is never
assigned and never used: no insertions. -/
def parseInsertionTable : List String → Option (List Insertion)
  | [] => some []
  | headerLine :: rows => parseRows (splitTab headerLine) rows

/-- The track line `write_output` writes first. -/
def track_line (sample : String) : String :=
  "track name=\"" ++ sample ++ "_popoolationte\" description=\"" ++ sample ++
    "_popoolationte\"\n"

/-- Embeds the emission loop of `write_output`: `x` is the `enumerate` index
over all insertions (it advances past filtered records too); records with
`is_ref` set are skipped; each emitted record contributes one written string
`Chr\t5p\t3p\tname\t0\t.\n`. A `KeyError` on a missing column aborts the
run (`none`). -/
def emitRows (sample : String) : Nat → List Insertion → Option (List String)
  | _, [] => some []
  | x, ins :: rest =>
    if ins.is_ref then emitRows sample (x + 1) rest
    else
      match dictGet ins.info "TE", dictGet ins.info "Coverage_Ratio" with
      | some te, some cr =>
        match dictGet ins.info "Chr", dictGet ins.info "Chr_coord_5p",
              dictGet ins.info "Chr_coord_3p" with
        | some ch, some c5, some c3 =>
          match emitRows sample (x + 1) rest with
          | none => none
          | some others =>
            some ((ch ++ "\t" ++ c5 ++ "\t" ++ c3 ++ "\t" ++
                   (te ++ "|non-reference|" ++ cr ++ "|" ++ sample ++ "|sr|" ++ toString x) ++
                   "\t0\t." ++ "\n") :: others)
        | _, _, _ => none
      | _, _ => none

/-- Embeds `write_output` on the insertion table (the depletion table is
opened nowhere in the function): returns the list of strings written to
`{sample}_TIDAL_tmp.bed`, in write order; `none` embeds an uncaught raise. -/
def write_output (insertionLines : List String) (sample : String) : Option (List String) :=
  match parseInsertionTable insertionLines with
  | none => none
  | some insertions =>
    match emitRows sample 0 insertions with
    | none => none
    | some dataLines => some (track_line sample :: dataLines)

/-! ## StageRunner and Checkpoint Verifier: `run_tidal`

`run_tidal` invokes the five external stage scripts in a fixed order with
`run_command` (default `fatal=True`: a non-zero exit prints diagnostics and
calls `sys.exit(1)`), and after four of them tests the stage's expected
artifact with `os.path.exists`, calling `sys.exit(msg)` (exit status 1) when
it is missing. `setup.sh` has no artifact test. The outside world — each
subprocess's exit status and each artifact's existence after its stage —
is the environment `TidalEnv`. The model returns the list of stage
subprocesses invoked, in invocation order, together with the outcome. -/

/-- The five stage scripts `run_tidal` invokes, in source order. -/
inductive Stage
  | data_prep
  | insert_pipeline
  | setup
  | depletion_pipeline
  | last_part
deriving DecidableEq, Fintype

/-- Position of a stage in the fixed invocation order. -/
def stageIdx : Stage → Nat
  | .data_prep => 0
  | .insert_pipeline => 1
  | .setup => 2
  | .depletion_pipeline => 3
  | .last_part => 4

/-- Which stages are followed by an `os.path.exists` checkpoint
(`setup.sh` is not). -/
def hasCheckpoint : Stage → Bool
  | .setup => false
  | _ => true

/-- How a `run_tidal` run ends. Every constructor other than `ok` models a
path that terminates the process with exit status 1. -/
inductive Outcome
  | ok
  | stagingFailed
  | subprocessFailed (s : Stage)
  | checkpointFailed (msg : String)
deriving DecidableEq

/-- Process exit status of an outcome: `run_command` failure calls
`sys.exit(1)`; `sys.exit(msg)` prints `msg` and exits with status 1. -/
def exitCode : Outcome → Nat
  | .ok => 0
  | .stagingFailed => 1
  | .subprocessFailed _ => 1
  | .checkpointFailed _ => 1

/-- The message of `sys.exit` at the `data_prep.sh` checkpoint. -/
def diag_data_prep : String := "data_prep.sh failed...exiting...\n"

/-- The message of `sys.exit` at the `insert_pipeline.sh` checkpoint. -/
def diag_insert : String := "insert_pipeline.sh failed...exiting...\n"

/-- The message of `sys.exit` at the `depletion_pipeline.sh` checkpoint —
the source passes the literal `"insert_pipeline.sh failed...exiting...\n"`
there (TIDAL.py line 277). -/
def diag_depletion : String := "insert_pipeline.sh failed...exiting...\n"

/-- The message of `sys.exit` at the `last_part.sh` checkpoint. -/
def diag_last_part : String := "last_part.sh failed...exiting...\n"

/-- Environment of one `run_tidal` run: for each stage subprocess whether it
exits 0, and for each checkpointed stage whether its expected artifact file
exists when the checkpoint runs. -/
structure TidalEnv where
  dataPrepExit0 : Bool
  insertExit0 : Bool
  setupExit0 : Bool
  depletionExit0 : Bool
  lastPartExit0 : Bool
  dataPrepArtifact : Bool
  insertArtifact : Bool
  depletionArtifact : Bool
  lastPartArtifact : Bool
deriving DecidableEq

/-- Whether stage `s`'s subprocess exits 0 in environment `env`. -/
def stageExit0 (env : TidalEnv) : Stage → Bool
  | .data_prep => env.dataPrepExit0
  | .insert_pipeline => env.insertExit0
  | .setup => env.setupExit0
  | .depletion_pipeline => env.depletionExit0
  | .last_part => env.lastPartExit0

/-- Whether the checkpoint artifact of stage `s` exists in environment
`env` (`setup` has no checkpoint; the value is never consulted for it). -/
def checkpointArtifact (env : TidalEnv) : Stage → Bool
  | .data_prep => env.dataPrepArtifact
  | .insert_pipeline => env.insertArtifact
  | .setup => true
  | .depletion_pipeline => env.depletionArtifact
  | .last_part => env.lastPartArtifact

/-- Embeds `run_tidal`: stages in source order, each `run_command` fatal on
non-zero exit, each checkpoint a `sys.exit(msg)` when the artifact is
missing. Returns the invoked-stage sequence and the outcome. -/
def run_tidal (env : TidalEnv) : List Stage × Outcome :=
  let t1 := [Stage.data_prep]
  if env.dataPrepExit0 = false then (t1, Outcome.subprocessFailed Stage.data_prep)
  else if env.dataPrepArtifact = false then (t1, Outcome.checkpointFailed diag_data_prep)
  else
  let t2 := t1 ++ [Stage.insert_pipeline]
  if env.insertExit0 = false then (t2, Outcome.subprocessFailed Stage.insert_pipeline)
  else if env.insertArtifact = false then (t2, Outcome.checkpointFailed diag_insert)
  else
  let t3 := t2 ++ [Stage.setup]
  if env.setupExit0 = false then (t3, Outcome.subprocessFailed Stage.setup)
  else
  let t4 := t3 ++ [Stage.depletion_pipeline]
  if env.depletionExit0 = false then (t4, Outcome.subprocessFailed Stage.depletion_pipeline)
  else if env.depletionArtifact = false then (t4, Outcome.checkpointFailed diag_depletion)
  else
  let t5 := t4 ++ [Stage.last_part]
  if env.lastPartExit0 = false then (t5, Outcome.subprocessFailed Stage.last_part)
  else if env.lastPartArtifact = false then (t5, Outcome.checkpointFailed diag_last_part)
  else (t5, Outcome.ok)

/-! ## InputStager: `copy` and `setup_input_files`

`copy` builds the destination path and runs `cp` through `subprocess.call`,
whose return value (the `cp` exit status) is discarded; the destination path
is returned whether or not `cp` succeeded. The `bowtie-build` /
`bowtie2-build` / `gunzip` invocations go through `run_command` with the
default `fatal=True`, so their failures call `sys.exit(1)` (embedded as
`none`). `os.chdir` mutates process-global state only and is not part of
the returned configuration. -/

/-- The command-line configuration after `parse_args` (absolute paths). -/
structure Args where
  fastq : String
  reference : String
  consensus : String
  annotation : String
  gem : String
  virus : String
  masked : String
  repeatmasker : String
  table : String
  sample_name : String
  processors : Nat
  out : String
deriving DecidableEq

/-- Environment of one `setup_input_files` run: the exit status of each
`cp` invocation and whether each `run_command`-wrapped tool invocation
exits 0. -/
structure StagingEnv where
  cpReferenceExit : Nat
  cpConsensusExit : Nat
  cpAnnotationExit : Nat
  cpGemExit : Nat
  cpVirusExit : Nat
  cpMaskedExit : Nat
  cpRepeatmaskerExit : Nat
  cpTableExit : Nat
  cpFastqExit : Nat
  bowtieVirusOk : Bool
  bowtieConsensusOk : Bool
  bowtie2ConsensusOk : Bool
  bowtieReferenceOk : Bool
  bowtie2ReferenceOk : Bool
  bowtieMaskedOk : Bool
  gunzipOk : Bool

/-- Embeds `copy`: destination is `outdir/basename(infile)` or
`outdir/outfilename`; `subprocess.call(["cp", infile, outfile])` runs and
its exit status is discarded; the destination path is returned
unconditionally. -/
def copy (infile outdir : String) (outfilename : Option String) (cpExitStatus : Nat) : String :=
  let outfile := match outfilename with
    | none => outdir ++ "/" ++ basename infile
    | some name => outdir ++ "/" ++ name
  let _ := cpExitStatus
  outfile

/-- Embeds `setup_input_files`: copy every input into `{out}/reference`
(the masked reference renamed `masked.<base>`), build the bowtie indexes,
then stage the read file into `{out}/TIDAL_out` under
`{sample}.fastq(.gz)`, gunzipping a compressed source. `none` embeds
`sys.exit(1)` from a failed `run_command`. -/
def setup_input_files (env : StagingEnv) (a : Args) : Option Args :=
  let ref_dir := a.out ++ "/reference"
  let reference := copy a.reference ref_dir none env.cpReferenceExit
  let consensus := copy a.consensus ref_dir none env.cpConsensusExit
  let annotation := copy a.annotation ref_dir none env.cpAnnotationExit
  let gem := copy a.gem ref_dir none env.cpGemExit
  let virus := copy a.virus ref_dir none env.cpVirusExit
  let masked := copy a.masked ref_dir (some ("masked." ++ get_base_name a.masked)) env.cpMaskedExit
  let repeatmasker := copy a.repeatmasker ref_dir none env.cpRepeatmaskerExit
  let table := copy a.table ref_dir none env.cpTableExit
  if env.bowtieVirusOk = false then none
  else if env.bowtieConsensusOk = false then none
  else if env.bowtie2ConsensusOk = false then none
  else if env.bowtieReferenceOk = false then none
  else if env.bowtie2ReferenceOk = false then none
  else if env.bowtieMaskedOk = false then none
  else if endsWithGz a.fastq then
    let fq := copy a.fastq (a.out ++ "/TIDAL_out") (some (a.sample_name ++ ".fastq.gz"))
        env.cpFastqExit
    if env.gunzipOk = false then none
    else some { a with
      reference := reference, consensus := consensus, annotation := annotation,
      gem := gem, virus := virus, masked := masked, repeatmasker := repeatmasker,
      table := table, fastq := dropLast3 fq }
  else
    some { a with
      reference := reference, consensus := consensus, annotation := annotation,
      gem := gem, virus := virus, masked := masked, repeatmasker := repeatmasker,
      table := table,
      fastq := copy a.fastq (a.out ++ "/TIDAL_out") (some (a.sample_name ++ ".fastq"))
        env.cpFastqExit }

/-- Staging composed with the stage driver, as `main` sequences them: when
`setup_input_files` exits the process, no stage subprocess is ever invoked
(`make_chrom_files` and `estimate_read_length`, which run between the two,
invoke no stage). -/
def run_pipeline (senv : StagingEnv) (a : Args) (tenv : TidalEnv) : List Stage × Outcome :=
  match setup_input_files senv a with
  | none => ([], Outcome.stagingFailed)
  | some _ => run_tidal tenv

/-! ## Concrete inputs used by the claim witnesses and counterexamples -/

/-- Header row of the worked insertion-table example. -/
def c8_header : String := "Chr\tChr_coord_5p\tChr_coord_3p\tTE\tCoverage_Ratio\n"

/-- Single data row of the worked insertion-table example. -/
def c8_row : String := "2L\t100\t200\tHopper\t0.8\n"

/-- The bed-file writes `write_output` performs on the worked example. -/
def c8_expected_output : List String :=
  ["track name=\"sample1_popoolationte\" description=\"sample1_popoolationte\"\n",
   "2L\t100\t200\tHopper|non-reference|0.8|sample1|sr|0\t0\t.\n"]

/-- A data row with six fields, one more than the example header has. -/
def c10_bad_row : String := "2L\t100\t200\tHopper\t0.8\textra\n"

/-- A well-formed four-line FASTQ record with a four-base read. -/
def demoFq : List String := ["@r1\n", "ACGT\n", "+\n", "IIII\n"]

/-- A four-line FASTQ record whose sequence line is empty. -/
def emptySeqFq : List String := ["@r1\n", "\n", "+\n", "\n"]

/-- A read file of 10,002 lines: more lines than the default sample bound
ever reads. -/
def bigFq : List String := List.replicate 10002 "AAAA\n"

/-- Environment where every subprocess exits 0 and every artifact exists
except the `insert_pipeline.sh` checkpoint artifact. -/
def c1_env : TidalEnv := ⟨true, true, true, true, true, true, false, true, true⟩

/-- Environment where every subprocess exits 0 and every artifact exists
except the `depletion_pipeline.sh` checkpoint artifact. -/
def c7_env : TidalEnv := ⟨true, true, true, true, true, true, true, false, true⟩

/-- Environment where every subprocess exits 0 and every artifact exists. -/
def all_ok_tidal_env : TidalEnv := ⟨true, true, true, true, true, true, true, true, true⟩

/-- The invoked-stage sequence of a complete run. -/
def all_stages : List Stage :=
  [Stage.data_prep, Stage.insert_pipeline, Stage.setup, Stage.depletion_pipeline,
   Stage.last_part]

/-- A concrete parsed configuration. -/
def demo_args : Args :=
  ⟨"/data/reads.fastq", "/data/ref.fa", "/data/te.fa", "/data/ann.txt", "/data/map.gem",
   "/data/virus.fa", "/data/masked.fa", "/data/rmsk.txt", "/data/lookup.txt",
   "sample1", 1, "/work"⟩

/-- Staging environment where the `cp` of the reference genome exits 1
(fails) and every checked tool invocation exits 0. -/
def c3_env : StagingEnv := ⟨1, 0, 0, 0, 0, 0, 0, 0, 0, true, true, true, true, true, true, true⟩

/-! ## Claim theorems -/

set_option synthInstance.maxSize 5000 in
/-- Claim C1: in every run in which a stage subprocess exits 0 but its
declared checkpoint artifact does not exist, the pipeline terminates with a
non-zero exit and no stage later in the fixed order is ever invoked. -/
theorem C1_checkpoint_halts (env : TidalEnv) (s : Stage)
    (hc : hasCheckpoint s = true)
    (hexit : stageExit0 env s = true)
    (hart : checkpointArtifact env s = false)
    (hrun : s ∈ (run_tidal env).1) :
    exitCode (run_tidal env).2 ≠ 0
    ∧ ∀ t : Stage, stageIdx s < stageIdx t → t ∉ (run_tidal env).1 := by
  obtain ⟨e1, e2, e3, e4, e5, a1, a2, a3, a4⟩ := env
  revert hc hexit hart hrun
  revert s
  revert e1 e2 e3 e4 e5 a1 a2 a3 a4
  decide

/-- Witness for C1: the run in which `insert_pipeline.sh` exits 0 but its
artifact is missing exits non-zero, and `depletion_pipeline.sh` is never
invoked there. -/
theorem C1_checkpoint_halts_witness :
    exitCode (run_tidal c1_env).2 ≠ 0 ∧ Stage.depletion_pipeline ∉ (run_tidal c1_env).1 :=
  ⟨(C1_checkpoint_halts c1_env Stage.insert_pipeline (by decide) (by decide) (by decide)
      (by decide)).1,
   (C1_checkpoint_halts c1_env Stage.insert_pipeline (by decide) (by decide) (by decide)
      (by decide)).2 Stage.depletion_pipeline (by decide)⟩

/-- Claim C2 (code defect): on a read file with zero usable sequence records
— here the empty file — `estimate_read_length` reaches the division
`sum(lengths) // len(lengths)` with an empty sample and raises an uncaught
`ZeroDivisionError`; the division is not guarded and no explicit error is
signaled. -/
theorem C2_division_by_zero_unguarded :
    estimate_read_length [] default_reads
      = Except.error "ZeroDivisionError: integer division or modulo by zero" := rfl

/-- Claim C3 (code defect): a failed `cp` during staging is invisible —
`copy` discards the exit status of `subprocess.call`. With the reference
copy exiting 1 and everything else succeeding, staging still returns a
configuration, every pipeline stage subprocess is invoked, and the process
exits 0. -/
theorem C3_copy_failure_not_fatal :
    (setup_input_files c3_env demo_args).isSome = true
    ∧ run_pipeline c3_env demo_args all_ok_tidal_env = (all_stages, Outcome.ok)
    ∧ exitCode (run_pipeline c3_env demo_args all_ok_tidal_env).2 = 0 :=
  ⟨rfl, rfl, rfl⟩

/-- Claim C7 (code defect): when `depletion_pipeline.sh` exits 0 but its
checkpoint artifact is missing, the diagnostic emitted before aborting is
`insert_pipeline.sh failed...exiting...` — the same message as the
insertion checkpoint, naming a stage that did not fail. -/
theorem C7_depletion_diagnostic_misnames_stage :
    (run_tidal c7_env).2
      = Outcome.checkpointFailed "insert_pipeline.sh failed...exiting...\n"
    ∧ diag_depletion = diag_insert :=
  ⟨rfl, rfl⟩

/-- Claim C8: on the table with header
`Chr\tChr_coord_5p\tChr_coord_3p\tTE\tCoverage_Ratio` and single data row
`2L\t100\t200\tHopper\t0.8`, sample name `sample1`, `write_output` writes
the track line first and then exactly the interval line
`2L\t100\t200\tHopper|non-reference|0.8|sample1|sr|0\t0\t.`. -/
theorem C8_translator_example :
    write_output [c8_header, c8_row] "sample1"
      = some ["track name=\"sample1_popoolationte\" description=\"sample1_popoolationte\"\n",
              "2L\t100\t200\tHopper|non-reference|0.8|sample1|sr|0\t0\t.\n"] := rfl

/-- Claim C6: the chromosome-length index receives exactly one row per
sequence record, in source order, each row holding the record's name and
length, and one `chroms/<id>.fa` file is written per record. -/
theorem C6_chrom_index (records : List FastaRecord) :
    (make_chrom_files records).1.length = records.length
    ∧ (make_chrom_files records).1
        = records.map (fun r => r.id ++ "\t" ++ toString r.seq.length ++ "\n")
    ∧ (make_chrom_files records).2.map Prod.fst = records.map (fun r => r.id ++ ".fa") := by
  induction records with
  | nil => exact ⟨rfl, rfl, rfl⟩
  | cons r rest ih =>
    refine ⟨?_, ?_, ?_⟩
    · simpa [make_chrom_files] using ih.1
    · simpa [make_chrom_files] using ih.2.1
    · simpa [make_chrom_files] using ih.2.2

/-- `assignFields` succeeds exactly on field lists that are empty or fit
inside the header list: `headers[x]` is in range at every step. -/
lemma assignFields_isSome_iff (headers : List String) (vs : List String) :
    ∀ (x : Nat) (d : List (String × String)),
      (assignFields headers x d vs).isSome = true
        ↔ (vs = [] ∨ x + vs.length ≤ headers.length) := by
  induction vs with
  | nil => intro x d; simp [assignFields]
  | cons v vt ih =>
    intro x d
    simp only [assignFields]
    cases hx : headers.get? x with
    | none =>
      have hlen : headers.length ≤ x := List.get?_eq_none.mp hx
      simp only [Option.isSome_none, Bool.false_eq_true, false_iff, not_or]
      refine ⟨List.cons_ne_nil v vt, ?_⟩
      simp only [List.length_cons]
      omega
    | some hv =>
      have hxlt : x < headers.length := by
        by_contra hge
        push_neg at hge
        rw [List.get?_eq_none.mpr hge] at hx
        exact Option.noConfusion hx
      rw [ih (x + 1) (dictInsert d hv v)]
      constructor
      · rintro (hnil | hle)
        · subst hnil
          right
          simp only [List.length_cons, List.length_nil]
          omega
        · right
          simp only [List.length_cons]
          omega
      · rintro (habs | hle)
        · exact absurd habs (List.cons_ne_nil v vt)
        · simp only [List.length_cons] at hle
          right
          omega

/-- `parseRows` succeeds exactly when every data row splits into at most as
many fields as there are headers. -/
lemma parseRows_isSome_iff (headers : List String) (rows : List String) :
    (parseRows headers rows).isSome = true
      ↔ ∀ r ∈ rows, (splitTab r).length ≤ headers.length := by
  induction rows with
  | nil => simp [parseRows]
  | cons line rest ih =>
    simp only [parseRows]
    cases ha : assignFields headers 0 [] (splitTab line) with
    | none =>
      have hiff := assignFields_isSome_iff headers (splitTab line) 0 []
      rw [ha] at hiff
      simp only [Option.isSome_none, Bool.false_eq_true, false_iff, not_or] at hiff
      simp only [Option.isSome_none, Bool.false_eq_true, false_iff]
      intro hall
      exact hiff.2 (by simpa using hall line (List.mem_cons_self line rest))
    | some d =>
      cases hp : parseRows headers rest with
      | none =>
        simp only [Option.isSome_none, Bool.false_eq_true, false_iff]
        intro hall
        have hsome : (parseRows headers rest).isSome = true :=
          ih.mpr (fun r hr => hall r (List.mem_cons_of_mem line hr))
        rw [hp] at hsome
        exact absurd hsome (by simp)
      | some others =>
        simp only [Option.isSome_some, true_iff]
        intro r hr
        rcases List.mem_cons.mp hr with hh | hh
        · subst hh
          have hiff := assignFields_isSome_iff headers (splitTab r) 0 []
          rw [ha] at hiff
          simp only [Option.isSome_some, true_iff] at hiff
          rcases hiff with hnil | hle
          · simp [hnil]
          · omega
        · exact (ih.mp (by rw [hp]; rfl)) r hh

/-- Claim C10: parsing of the insertion table is total exactly for tables
in which every data row has at most as many tab-separated fields as the
header row; a longer row makes `headers[x]` raise `IndexError`. -/
theorem C10_parse_total_iff (headerLine : String) (rows : List String) :
    (parseInsertionTable (headerLine :: rows)).isSome = true
      ↔ ∀ r ∈ rows, (splitTab r).length ≤ (splitTab headerLine).length :=
  parseRows_isSome_iff (splitTab headerLine) rows

/-- Witness for C10: the worked five-column table parses, and the same
table with a six-field data row does not. -/
theorem C10_parse_total_iff_witness :
    (parseInsertionTable [c8_header, c8_row]).isSome = true
    ∧ ¬ ((parseInsertionTable [c8_header, c10_bad_row]).isSome = true) :=
  ⟨(C10_parse_total_iff c8_header [c8_row]).mpr (by decide),
   fun h => by
     have hle := (C10_parse_total_iff c8_header [c10_bad_row]).mp h c10_bad_row
       (List.mem_cons_self _ _)
     revert hle
     decide⟩

/-- Every insertion `parseRows` builds carries `is_ref = false`: the
constructor sets it and nothing ever assigns it. -/
lemma parseRows_mem_is_ref (headers : List String) :
    ∀ (rows : List String) (ins : List Insertion),
      parseRows headers rows = some ins → ∀ i ∈ ins, i.is_ref = false := by
  intro rows
  induction rows with
  | nil =>
    intro ins h i hi
    simp only [parseRows, Option.some.injEq] at h
    subst h
    simp at hi
  | cons line rest ih =>
    intro ins h i hi
    simp only [parseRows] at h
    cases ha : assignFields headers 0 [] (splitTab line) with
    | none => rw [ha] at h; exact Option.noConfusion h
    | some d =>
      rw [ha] at h
      cases hp : parseRows headers rest with
      | none => rw [hp] at h; exact Option.noConfusion h
      | some others =>
        rw [hp] at h
        injection h with h
        subst h
        rcases List.mem_cons.mp hi with hh | hh
        · rw [hh]
        · exact ih others hp i hh

/-- `parseRows` produces one insertion per data row. -/
lemma parseRows_length (headers : List String) :
    ∀ (rows : List String) (ins : List Insertion),
      parseRows headers rows = some ins → ins.length = rows.length := by
  intro rows
  induction rows with
  | nil =>
    intro ins h
    simp only [parseRows, Option.some.injEq] at h
    subst h
    rfl
  | cons line rest ih =>
    intro ins h
    simp only [parseRows] at h
    cases ha : assignFields headers 0 [] (splitTab line) with
    | none => rw [ha] at h; exact Option.noConfusion h
    | some d =>
      rw [ha] at h
      cases hp : parseRows headers rest with
      | none => rw [hp] at h; exact Option.noConfusion h
      | some others =>
        rw [hp] at h
        injection h with h
        subst h
        simp [ih others hp]

/-- When no insertion is flagged `is_ref`, the emission loop writes one
line per insertion. -/
lemma emitRows_length (sample : String) :
    ∀ (ins : List Insertion) (x : Nat) (ls : List String),
      (∀ i ∈ ins, i.is_ref = false) → emitRows sample x ins = some ls →
        ls.length = ins.length := by
  intro ins
  induction ins with
  | nil =>
    intro x ls _ h
    simp only [emitRows, Option.some.injEq] at h
    subst h
    rfl
  | cons i rest ih =>
    intro x ls hall h
    have hi : i.is_ref = false := hall i (List.mem_cons_self i rest)
    simp only [emitRows, hi, Bool.false_eq_true, if_false] at h
    cases hte : dictGet i.info "TE" with
    | none => rw [hte] at h; exact Option.noConfusion h
    | some te =>
      rw [hte] at h
      cases hcr : dictGet i.info "Coverage_Ratio" with
      | none => rw [hcr] at h; exact Option.noConfusion h
      | some cr =>
        rw [hcr] at h
        cases hch : dictGet i.info "Chr" with
        | none => rw [hch] at h; exact Option.noConfusion h
        | some ch =>
          rw [hch] at h
          cases hc5 : dictGet i.info "Chr_coord_5p" with
          | none => rw [hc5] at h; exact Option.noConfusion h
          | some c5 =>
            rw [hc5] at h
            cases hc3 : dictGet i.info "Chr_coord_3p" with
            | none => rw [hc3] at h; exact Option.noConfusion h
            | some c3 =>
              rw [hc3] at h
              cases hrec : emitRows sample (x + 1) rest with
              | none => rw [hrec] at h; exact Option.noConfusion h
              | some others =>
                rw [hrec] at h
                injection h with h
                subst h
                have hr := ih (x + 1) others
                  (fun j hj => hall j (List.mem_cons_of_mem i hj)) hrec
                simp [hr]

/-- Claim C9: every parsed insertion has `is_ref = false` for its whole
lifetime, so on any table `write_output` completes on, the bed file holds
the track line plus exactly one data line per data row — the
non-reference filter never excludes a record. -/
theorem C9_is_ref_always_false (lines : List String) (sample : String) :
    (∀ ins, parseInsertionTable lines = some ins → ∀ i ∈ ins, i.is_ref = false)
    ∧ (∀ out, write_output lines sample = some out → out.length = lines.tail.length + 1) := by
  have hparse : ∀ ins, parseInsertionTable lines = some ins →
      (∀ i ∈ ins, i.is_ref = false) ∧ ins.length = lines.tail.length := by
    intro ins h
    cases lines with
    | nil =>
      simp only [parseInsertionTable, Option.some.injEq] at h
      subst h
      exact ⟨by simp, rfl⟩
    | cons hd rows =>
      exact ⟨parseRows_mem_is_ref (splitTab hd) rows ins h,
             by simpa using parseRows_length (splitTab hd) rows ins h⟩
  refine ⟨fun ins h => (hparse ins h).1, ?_⟩
  intro out h
  simp only [write_output] at h
  cases hp : parseInsertionTable lines with
  | none => rw [hp] at h; exact Option.noConfusion h
  | some ins =>
    rw [hp] at h
    have h2 : (match emitRows sample 0 ins with
        | none => none
        | some dataLines => some (track_line sample :: dataLines)) = some out := h
    cases he : emitRows sample 0 ins with
    | none => rw [he] at h2; exact Option.noConfusion h2
    | some ds =>
      rw [he] at h2
      injection h2 with h2
      subst h2
      have h1 := emitRows_length sample ins 0 ds (hparse ins hp).1 he
      simp [h1, (hparse ins hp).2]

/-- Witness for C9: on the worked example the bed file has the track line
plus one data line for the single data row. -/
theorem C9_is_ref_always_false_witness :
    c8_expected_output.length = (List.tail [c8_header, c8_row]).length + 1 :=
  (C9_is_ref_always_false [c8_header, c8_row] "sample1").2 c8_expected_output rfl

/-- The sampling loop started at line index `x ≤ reads` collects exactly the
stripped lengths of the lines at indices `≡ 1 (mod 4)` among the next
`reads + 1 - x` lines. -/
lemma sampleLengths_characterization (reads : Nat) (lines : List String) :
    ∀ (x : Nat), x ≤ reads →
      sampleLengths reads x lines
        = ((List.enumFrom x (lines.take (reads + 1 - x))).filter
            (fun p => p.1 % 4 == 1)).map (fun p => (stripNewline p.2).length) := by
  induction lines with
  | nil => intro x hx; simp [sampleLengths]
  | cons line rest ih =>
    intro x hx
    by_cases hr : reads ≤ x
    · have hx' : x = reads := Nat.le_antisymm hx hr
      subst hx'
      have h1 : x + 1 - x = 1 := by omega
      rw [h1]
      by_cases h4 : x % 4 = 1
      · have hb : (x % 4 == 1) = true := by rw [h4]; rfl
        simp [sampleLengths, h4, hb, List.filter, List.enumFrom]
      · have hb : (x % 4 == 1) = false := by
          simp only [beq_eq_false_iff_ne, ne_eq]
          exact h4
        simp [sampleLengths, h4, hb, List.filter, List.enumFrom]
    · have h2 : reads + 1 - x = (reads - x) + 1 := by omega
      have h3 : reads + 1 - (x + 1) = reads - x := by omega
      have ihx := ih (x + 1) (by omega)
      rw [h3] at ihx
      rw [h2]
      by_cases h4 : x % 4 = 1
      · have hb : (x % 4 == 1) = true := by rw [h4]; rfl
        simp [sampleLengths, hr, h4, hb, List.take_succ_cons, List.enumFrom_cons,
          List.filter_cons, ihx]
      · have hb : (x % 4 == 1) = false := by
          simp only [beq_eq_false_iff_ne, ne_eq]
          exact h4
        simp [sampleLengths, hr, h4, hb, List.take_succ_cons, List.enumFrom_cons,
          List.filter_cons, ihx]

/-- The sampling loop from index 0: the sampled lines are those at indices
`≡ 1 (mod 4)` among the first `reads + 1` lines of the file. -/
lemma sampleLengths_eq_enum (reads : Nat) (lines : List String) :
    sampleLengths reads 0 lines
      = (((lines.take (reads + 1)).enum).filter (fun p => p.1 % 4 == 1)).map
          (fun p => (stripNewline p.2).length) := by
  have h := sampleLengths_characterization reads lines 0 (Nat.zero_le reads)
  simpa [List.enum] using h

/-- Counting index-filtered entries of an enumeration is counting the
matching indices. -/
lemma filter_enum_length (q : Nat → Bool) (l : List String) :
    ((List.enum l).filter (fun p => q p.1)).length
      = ((List.range l.length).filter q).length := by
  rw [← List.enum_map_fst l, List.filter_map, List.length_map]
  rfl

/-- Number of records the sampling loop collects. -/
lemma sampleLengths_length_eq (reads : Nat) (lines : List String) :
    (sampleLengths reads 0 lines).length
      = ((List.range (min (reads + 1) lines.length)).filter
          (fun x => x % 4 == 1)).length := by
  have hbridge := filter_enum_length (fun x => x % 4 == 1) (lines.take (reads + 1))
  rw [sampleLengths_eq_enum, List.length_map, hbridge, List.length_take]

/-- Among `0, …, 4k` there are exactly `k` numbers `≡ 1 (mod 4)`. -/
lemma range_filter_mod4 : ∀ k : Nat,
    ((List.range (4 * k + 1)).filter (fun x => x % 4 == 1)).length = k := by
  intro k
  induction k with
  | zero => rfl
  | succ n ihn =>
    have h5 : 4 * (n + 1) + 1 = 4 * n + 1 + 1 + 1 + 1 + 1 := by ring
    have b1 : ((4 * n + 1) % 4 == 1) = true := by
      have hb : (4 * n + 1) % 4 = 1 := by omega
      rw [hb]
      rfl
    have b2 : ((4 * n + 1 + 1) % 4 == 1) = false := by
      have hb : (4 * n + 1 + 1) % 4 = 2 := by omega
      rw [hb]
      rfl
    have b3 : ((4 * n + 1 + 1 + 1) % 4 == 1) = false := by
      have hb : (4 * n + 1 + 1 + 1) % 4 = 3 := by omega
      rw [hb]
      rfl
    have b4 : ((4 * n + 1 + 1 + 1 + 1) % 4 == 1) = false := by
      have hb : (4 * n + 1 + 1 + 1 + 1) % 4 = 0 := by omega
      rw [hb]
      rfl
    rw [h5, List.range_succ, List.range_succ, List.range_succ, List.range_succ]
    simp [List.filter_append, List.filter_cons, b1, b2, b3, b4, ihn]

/-- Among `0, …, 4k + 1` there are exactly `k + 1` numbers `≡ 1 (mod 4)`. -/
lemma range_filter_mod4_two (k : Nat) :
    ((List.range (4 * k + 2)).filter (fun x => x % 4 == 1)).length = k + 1 := by
  have h : 4 * k + 2 = (4 * k + 1) + 1 := by ring
  have b1 : ((4 * k + 1) % 4 == 1) = true := by
    have hb : (4 * k + 1) % 4 = 1 := by omega
    rw [hb]
    rfl
  rw [h, List.range_succ]
  simp [List.filter_append, List.filter_cons, b1, range_filter_mod4]

/-- Claim C4 counterexample: on a 10,002-line read file the default-bound
sampler collects 2,500 records and stops, although only 10,000 records were
never reached (2,500 ≠ 10,000) and the file was not exhausted (the file
holds 2,501 sequence lines and is longer than the 10,001 lines the loop
reads). The bound caps the line index, not the record count. -/
theorem C4_counterexample :
    (sampleLengths default_reads 0 bigFq).length = 2500
    ∧ ((List.range bigFq.length).filter (fun x => x % 4 == 1)).length = 2501
    ∧ 2500 ≠ default_reads
    ∧ 10001 < bigFq.length := by
  have hlen : bigFq.length = 10002 := by
    simp only [bigFq, List.length_replicate]
  refine ⟨?_, ?_, by decide, by rw [hlen]; omega⟩
  · rw [sampleLengths_length_eq, hlen]
    have hmin : min (default_reads + 1) 10002 = 4 * 2500 + 1 := by
      simp only [default_reads]
      omega
    rw [hmin, range_filter_mod4]
  · rw [hlen]
    have h2 : (10002 : Nat) = 4 * 2500 + 2 := by omega
    rw [h2, range_filter_mod4_two]

/-- Claim C4 (amended): with the default bound, `estimate_read_length`
samples exactly the stripped lengths of the lines at indices `≡ 1 (mod 4)`
among the first 10,001 lines: every 4th line starting at offset 1 is a
sequence line, and sampling stops once the 0-based line index reaches the
bound — a bound on lines read, not on records sampled — or the file is
exhausted, whichever comes first. -/
theorem C4_line_bound_sampling (lines : List String) :
    sampleLengths default_reads 0 lines
      = (((lines.take (default_reads + 1)).enum).filter (fun p => p.1 % 4 == 1)).map
          (fun p => (stripNewline p.2).length) :=
  sampleLengths_eq_enum default_reads lines

/-- Claim C5 counterexample: the four-line read file whose sequence line is
empty has one sampled record, yet `estimate_read_length` returns 0 — not a
positive integer. -/
theorem C5_counterexample :
    (sampleLengths default_reads 0 emptySeqFq).length = 1
    ∧ estimate_read_length emptySeqFq default_reads = Except.ok 0 :=
  ⟨rfl, rfl⟩

/-- A list of positive numbers is no longer than its sum. -/
lemma length_le_sum (l : List Nat) (h : ∀ y ∈ l, 0 < y) : l.length ≤ l.sum := by
  induction l with
  | nil => simp
  | cons a t ih =>
    have ha := h a (List.mem_cons_self a t)
    have ht := ih (fun y hy => h y (List.mem_cons_of_mem a hy))
    simp only [List.length_cons, List.sum_cons]
    omega

/-- Claim C5 (amended): on every read file with at least one sampled record,
`estimate_read_length` returns the floor of the mean of the stripped sampled
sequence-line lengths; the result is positive whenever every sampled
sequence line is nonempty (an empty sequence line can drag the floor of the
mean to 0). -/
theorem C5_floor_mean (fileLines : List String) (reads : Nat)
    (h : 0 < (sampleLengths reads 0 fileLines).length) :
    estimate_read_length fileLines reads
      = Except.ok ((sampleLengths reads 0 fileLines).sum
          / (sampleLengths reads 0 fileLines).length)
    ∧ ((∀ L ∈ sampleLengths reads 0 fileLines, 0 < L) →
        0 < (sampleLengths reads 0 fileLines).sum
            / (sampleLengths reads 0 fileLines).length) := by
  have hne : ¬ (sampleLengths reads 0 fileLines).length = 0 := by omega
  constructor
  · simp only [estimate_read_length]
    rw [if_neg hne]
  · intro hall
    have hle := length_le_sum (sampleLengths reads 0 fileLines) hall
    have hpos := (Nat.one_le_div_iff h).mpr hle
    omega

/-- Witness for C5 (amended): on a well-formed single-record file with a
four-base read the estimator returns the floor mean, which is positive. -/
theorem C5_floor_mean_witness :
    0 < (sampleLengths default_reads 0 demoFq).length
    ∧ estimate_read_length demoFq default_reads
        = Except.ok ((sampleLengths default_reads 0 demoFq).sum
            / (sampleLengths default_reads 0 demoFq).length)
    ∧ 0 < (sampleLengths default_reads 0 demoFq).sum
          / (sampleLengths default_reads 0 demoFq).length :=
  ⟨by decide, (C5_floor_mean demoFq default_reads (by decide)).1,
   (C5_floor_mean demoFq default_reads (by decide)).2 (by decide)⟩

end TIDAL
